import Mathlib

/-!
Verification development for the Scrappy lead-scraping backend.

The Python sources are shallowly embedded in Lean.  Strings are modelled as
lists of Unicode code points (`List Nat`); character classes of the regexes
used by the code (`\w`, `\s`) are modelled over their ASCII meaning, which
covers every string the specification and the tests exercise.  Sets and dicts
are modelled as lists with explicit membership; Python keyword-argument
binding (relevant to two claims) is modelled explicitly.
-/

namespace Scrappy

/-! ## Python string primitives (over code points) -/

/-- Code points of a Lean string, used to move between `String` literals and
the `List Nat` representation of Python strings. -/
def strCodes (s : String) : List Nat := s.data.map Char.toNat

/-- Rebuild a Lean string from code points (all code points produced by the
embedded functions are ASCII, hence valid scalar values). -/
def codesStr (l : List Nat) : String := ⟨l.map Char.ofNat⟩

/-- Python `str.lower` on one code point, ASCII fragment: `A`-`Z` map to
`a`-`z`, everything else is unchanged. -/
def pyLower (n : Nat) : Nat := if 65 ≤ n ∧ n ≤ 90 then n + 32 else n

/-- Python whitespace (the class `\s` and the default of `str.strip` /
`str.split`, ASCII fragment): space, tab, newline, vertical tab, form feed,
carriage return. -/
def isSpaceB (n : Nat) : Bool :=
  n = 32 || n = 9 || n = 10 || n = 11 || n = 12 || n = 13

/-- The regex class `\w` (ASCII fragment): letters, digits, underscore. -/
def isWordCharB (n : Nat) : Bool :=
  (48 ≤ n && n ≤ 57) || (65 ≤ n && n ≤ 90) || (97 ≤ n && n ≤ 122) || n = 95

/-- Characters kept by `re.sub(r'[^\w\s\-&]', ' ', q)`: word characters,
whitespace, hyphen (45) and ampersand (38). -/
def isKeepB (n : Nat) : Bool := isWordCharB n || isSpaceB n || n = 45 || n = 38

/-- One character of `re.sub(r'[^\w\s\-&]', ' ', q)`: characters outside the
kept class are replaced by a space. -/
def substPunct (n : Nat) : Nat := if isKeepB n then n else 32

/-- Python `str.strip()`: drop leading and trailing whitespace. -/
def pyStrip (cs : List Nat) : List Nat :=
  List.rdropWhile isSpaceB (cs.dropWhile isSpaceB)

/-- The effect of `re.sub(r'\s+', ' ', q)`: every maximal whitespace run is
replaced by a single space (code 32). -/
def collapseWs : List Nat → List Nat
  | [] => []
  | [c] => if isSpaceB c then [32] else [c]
  | c :: d :: rest =>
    if isSpaceB c then
      if isSpaceB d then collapseWs (d :: rest) else 32 :: collapseWs (d :: rest)
    else c :: collapseWs (d :: rest)

/-- Accumulator-passing splitter behind `pySplitWs`; the accumulator holds the
current word reversed. -/
def splitAux : List Nat → List Nat → List (List Nat)
  | [], acc => if acc.isEmpty then [] else [acc.reverse]
  | c :: rest, acc =>
    if isSpaceB c then
      if acc.isEmpty then splitAux rest [] else acc.reverse :: splitAux rest []
    else splitAux rest (c :: acc)

/-- Python `str.split()` with no arguments: maximal runs of non-whitespace
characters, empty words never appear. -/
def pySplitWs (cs : List Nat) : List (List Nat) := splitAux cs []

/-- Python `' '.join(tokens)`: tokens joined by a single space. -/
def joinSep : List (List Nat) → List Nat
  | [] => []
  | [t] => t
  | t :: t2 :: ts => t ++ 32 :: joinSep (t2 :: ts)

/-- Lexicographic comparison of code-point strings, the order used by Python
`list.sort()` on `str`. -/
def lexLeB : List Nat → List Nat → Bool
  | [], _ => true
  | _ :: _, [] => false
  | a :: as, b :: bs => if a < b then true else if b < a then false else lexLeB as bs

/-- The sorting relation for `list.sort()` on strings. -/
def lexLe (s t : List Nat) : Prop := lexLeB s t = true

instance : DecidableRel lexLe := fun _ _ => inferInstanceAs (Decidable (_ = true))

instance : IsTotal (List Nat) lexLe where
  total := by
    intro s t
    show lexLeB s t = true ∨ lexLeB t s = true
    induction s generalizing t with
    | nil => exact Or.inl rfl
    | cons a as ih =>
      cases t with
      | nil => exact Or.inr rfl
      | cons b bs =>
        by_cases hab : a < b
        · exact Or.inl (by simp [lexLeB, hab])
        · by_cases hba : b < a
          · exact Or.inr (by simp [lexLeB, hba])
          · have h1 : lexLeB (a :: as) (b :: bs) = lexLeB as bs := by
              simp [lexLeB, hab, hba]
            have h2 : lexLeB (b :: bs) (a :: as) = lexLeB bs as := by
              simp [lexLeB, hab, hba]
            rw [h1, h2]; exact ih bs

instance : IsTrans (List Nat) lexLe where
  trans := by
    intro s t u h1 h2
    show lexLeB s u = true
    induction s generalizing t u with
    | nil => rfl
    | cons a as ih =>
      cases t with
      | nil => simp [lexLe, lexLeB] at h1
      | cons b bs =>
        cases u with
        | nil => simp [lexLe, lexLeB] at h2
        | cons c cs =>
          have h1' : lexLeB (a :: as) (b :: bs) = true := h1
          have h2' : lexLeB (b :: bs) (c :: cs) = true := h2
          simp only [lexLeB] at h1' h2' ⊢
          rcases Nat.lt_trichotomy a b with hab | hab | hab
          · rcases Nat.lt_trichotomy b c with hbc | hbc | hbc
            · simp [Nat.lt_trans hab hbc]
            · subst hbc; simp [hab]
            · simp [Nat.lt_asymm hbc, hbc] at h2'
          · subst hab
            rcases Nat.lt_trichotomy a c with hac | hac | hac
            · simp [hac]
            · subst hac
              simp only [Nat.lt_irrefl, if_false, ite_false] at h1' h2' ⊢
              exact ih bs cs h1' h2'
            · simp [Nat.lt_asymm hac, hac] at h2'
          · simp [Nat.lt_asymm hab, hab] at h1'

/-- Python `tokens.sort()` for string tokens: a stable sort under the
lexicographic order (any stable sort computes the same list because `lexLe`
is antisymmetric on distinct lists). -/
def sortTokens (ts : List (List Nat)) : List (List Nat) := List.insertionSort lexLe ts

/-- Characters that can appear inside a token of a normalized query: kept by
the punctuation substitution, not whitespace, and fixed by lowercasing
(hence ASCII). -/
def GoodChar (c : Nat) : Prop :=
  isKeepB c = true ∧ isSpaceB c = false ∧ pyLower c = c

/-! ## QueryNormalizer (backend/services/query_normalizer.py) -/

namespace QueryNormalizer

/-- `LOCATION_WORDS = {'in', 'near', 'around', 'at', 'of', 'for'}`. -/
def LOCATION_WORDS : List (List Nat) :=
  [strCodes "in", strCodes "near", strCodes "around", strCodes "at",
   strCodes "of", strCodes "for"]

/-- `STOP_WORDS = {'the', 'a', 'an', 'and', 'or'}`. -/
def STOP_WORDS : List (List Nat) :=
  [strCodes "the", strCodes "a", strCodes "an", strCodes "and", strCodes "or"]

/-- The loop of step 6 of `QueryNormalizer.normalize`: split the token list
into service tokens and location-indicator tokens, keeping order. -/
def splitServiceLocation (toks : List (List Nat)) :
    List (List Nat) × List (List Nat) :=
  (toks.filter (fun t => !decide (t ∈ LOCATION_WORDS)),
   toks.filter (fun t => decide (t ∈ LOCATION_WORDS)))

/-- `QueryNormalizer.normalize` on code points, following the source steps:
lowercase and strip, replace punctuation outside `[\w\s\-&]` by spaces,
collapse whitespace and strip, tokenize, drop stop words, partition into
service and location tokens, sort each part, join with single spaces. -/
def normalizeCodes (cs : List Nat) : List Nat :=
  if cs = [] then []
  else
    let q1 := pyStrip (cs.map pyLower)
    let q2 := q1.map substPunct
    let q3 := pyStrip (collapseWs q2)
    let tokens := pySplitWs q3
    let tokens2 := tokens.filter (fun t => !decide (t ∈ STOP_WORDS))
    let part := splitServiceLocation tokens2
    joinSep (sortTokens part.1 ++ sortTokens part.2)

/-- `QueryNormalizer.normalize` on Lean strings. -/
def normalize (query : String) : String := codesStr (normalizeCodes (strCodes query))

end QueryNormalizer

/-! ## PlaceIDDeduplicationService (backend/services/deduplication.py)

The two regexes `PLACE_ID_PATTERN = 0x[a-f0-9]+` and
`FEATURE_ID_PATTERN = (0x[a-f0-9]+):(0x[a-f0-9]+)` (both `re.IGNORECASE`)
are modelled directly: a leftmost search where each quantifier is greedy.
For these patterns greedy matching needs no backtracking, because a shorter
hex run is always followed by another hex digit, never by the required
literal. -/

namespace Dedup

/-- The class `[a-f0-9]` under `re.IGNORECASE`. -/
def isHexDigitB (n : Nat) : Bool :=
  (48 ≤ n && n ≤ 57) || (97 ≤ n && n ≤ 102) || (65 ≤ n && n ≤ 70)

/-- The literal `0x` under `re.IGNORECASE`: `0` then `x` or `X`. -/
def isZeroX (c0 c1 : Nat) : Bool := c0 = 48 && (c1 = 120 || c1 = 88)

/-- Match `0x[a-f0-9]+` anchored at the head of the list; returns the matched
text. -/
def match0xAt : List Nat → Option (List Nat)
  | c0 :: c1 :: rest =>
    if isZeroX c0 c1 then
      let run := rest.takeWhile isHexDigitB
      if run.isEmpty then none else some (c0 :: c1 :: run)
    else none
  | _ => none

/-- `PLACE_ID_PATTERN.search`: leftmost match of `0x[a-f0-9]+`. -/
def search0x : List Nat → Option (List Nat)
  | [] => none
  | c :: rest =>
    match match0xAt (c :: rest) with
    | some r => some r
    | none => search0x rest

/-- Match `(0x[a-f0-9]+):(0x[a-f0-9]+)` anchored at the head of the list;
returns the pair of captured groups. -/
def matchFeatureAt : List Nat → Option (List Nat × List Nat)
  | c0 :: c1 :: rest =>
    if isZeroX c0 c1 then
      let r1 := rest.takeWhile isHexDigitB
      if r1.isEmpty then none
      else
        match rest.dropWhile isHexDigitB with
        | 58 :: d0 :: d1 :: rest2 =>
          if isZeroX d0 d1 then
            let r2 := rest2.takeWhile isHexDigitB
            if r2.isEmpty then none
            else some (c0 :: c1 :: r1, d0 :: d1 :: r2)
          else none
        | _ => none
    else none
  | _ => none

/-- `FEATURE_ID_PATTERN.search`: leftmost match, groups captured. -/
def searchFeature : List Nat → Option (List Nat × List Nat)
  | [] => none
  | c :: rest =>
    match matchFeatureAt (c :: rest) with
    | some r => some r
    | none => searchFeature rest

/-- One step list of `PLACE_ID_PATTERN.findall`: non-overlapping leftmost
matches; the fuel argument (instantiated with the input length) only serves
termination, each step consumes at least one character. -/
def findAll0xAux : Nat → List Nat → List (List Nat)
  | 0, _ => []
  | _ + 1, [] => []
  | fuel + 1, c :: rest =>
    match match0xAt (c :: rest) with
    | some m => m :: findAll0xAux fuel ((c :: rest).drop m.length)
    | none => findAll0xAux fuel rest

/-- `PLACE_ID_PATTERN.findall(href)`. -/
def pyFindall0x (cs : List Nat) : List (List Nat) := findAll0xAux cs.length cs

/-- `max(matches, key=len)`: the first element of maximal length. -/
def maxByLen : List (List Nat) → Option (List Nat)
  | [] => none
  | x :: xs => some (xs.foldl (fun best y => if y.length > best.length then y else best) x)

/-- Python `str.lower` on a code-point string. -/
def lowerStr (cs : List Nat) : List Nat := cs.map pyLower

/-- `PlaceIDDeduplicationService.extract_place_id`: feature-ID pattern first
(group 1, lowercased), else the longest `0x...` hex token, lowercased. -/
def extract_place_id (href : List Nat) : Option (List Nat) :=
  if href = [] then none
  else
    match searchFeature href with
    | some (g1, _) => some (lowerStr g1)
    | none =>
      match maxByLen (pyFindall0x href) with
      | some m => some (lowerStr m)
      | none => none

/-- Value of one hex digit (the inputs are guaranteed to satisfy
`isHexDigitB`). -/
def hexDigitVal (n : Nat) : Nat :=
  if 48 ≤ n ∧ n ≤ 57 then n - 48
  else if 97 ≤ n ∧ n ≤ 102 then n - 87
  else if 65 ≤ n ∧ n ≤ 70 then n - 55
  else 0

/-- Value of a hex digit string. -/
def hexVal (ds : List Nat) : Nat := ds.foldl (fun acc d => 16 * acc + hexDigitVal d) 0

/-- Python `int(s, 16)` on the shapes produced by the regexes here: an
optional `0x` / `0X` prefix followed by hex digits. -/
def pyIntBase16 (cs : List Nat) : Option Nat :=
  let body :=
    match cs with
    | c0 :: c1 :: rest => if isZeroX c0 c1 then rest else cs
    | _ => cs
  if body ≠ [] ∧ body.all isHexDigitB then some (hexVal body) else none

/-- Python `str(n)` for a natural number, as code points. -/
def decStr (n : Nat) : List Nat := strCodes (Nat.repr n)

/-- `PlaceIDDeduplicationService.extract_cid_from_feature_id`: convert the
second captured hex group of the feature ID to its decimal string; with no
colon match, fall back to the first `0x...` token.  A `ValueError` from
`int` is caught and yields `None`. -/
def extract_cid_from_feature_id (feature_id : List Nat) : Option (List Nat) :=
  if feature_id = [] then none
  else
    match searchFeature feature_id with
    | some (_, g2) =>
      match pyIntBase16 g2 with
      | some v => some (decStr v)
      | none => none
    | none =>
      match search0x feature_id with
      | some m =>
        match pyIntBase16 m with
        | some v => some (decStr v)
        | none => none
      | none => none

end Dedup

/-! ## ScrapeProgressTracker (backend/services/progress_tracker.py)

Progress entries store full scraped-business dictionaries; the tracker's
control flow only ever inspects the `name` key of such a dictionary, so a
result is modelled by that key alone. -/

namespace Tracker

/-- A scraped-business dictionary as seen by the tracker: only `get('name')`
is consulted. -/
structure ResultEntry where
  name : Option String
deriving DecidableEq

/-- `ProgressData` (timestamps are abstract ticks supplied by the caller;
`progress_percent` is a machine integer, modelled on `Nat` since every
caller passes non-negative values). -/
structure ProgressData where
  scrape_id : String
  status : String := "starting"
  progress_percent : Nat := 0
  phase : String := "Initializing..."
  cards_found : Nat := 0
  cards_extracted : Nat := 0
  unique_results : Nat := 0
  scrolls_done : Nat := 0
  max_scrolls : Nat := 50
  target_count : Nat := 50
  extraction_errors : Nat := 0
  start_time : Nat := 0
  last_update : Nat := 0
  results_preview : List ResultEntry := []
  sample_result : Option ResultEntry := none
  final_results : Option (List ResultEntry) := none
  error_message : Option String := none
deriving DecidableEq

/-- The dict `active_scrapes`, as an insertion-ordered association list with
unique keys. -/
abbrev TrackerMap := List (String × ProgressData)

/-- Dict assignment `active_scrapes[sid] = p`. -/
def setEntry (m : TrackerMap) (sid : String) (p : ProgressData) : TrackerMap :=
  if (List.lookup sid m).isSome then
    m.map (fun e => if e.1 = sid then (sid, p) else e)
  else m ++ [(sid, p)]

/-- `ScrapeProgressTracker.create_scrape`. -/
def create_scrape (m : TrackerMap) (sid : String) (target_count max_scrolls : Nat)
    (now : Nat) : TrackerMap :=
  setEntry m sid
    { scrape_id := sid, target_count := target_count, max_scrolls := max_scrolls,
      status := "starting", phase := "Starting scrape...",
      start_time := now, last_update := now }

/-- Python truthiness of `sample_result.get('name')`. -/
def truthyName (r : ResultEntry) : Bool :=
  match r.name with
  | some s => !decide (s = "")
  | none => false

/-- The keyword arguments of one `ScrapeProgressTracker.update` call
(absent keyword = `None` = field untouched). -/
structure UpdateCall where
  progress_percent : Option Nat := none
  status : Option String := none
  phase : Option String := none
  cards_found : Option Nat := none
  cards_extracted : Option Nat := none
  unique_results : Option Nat := none
  scrolls_done : Option Nat := none
  sample_result : Option ResultEntry := none
  results_preview : Option (List ResultEntry) := none
  error_message : Option String := none

/-- `if progress_percent is not None: progress.progress_percent =
min(progress_percent, 100)`. -/
def upPercent (u : UpdateCall) (p : ProgressData) : ProgressData :=
  match u.progress_percent with
  | some v => { p with progress_percent := min v 100 }
  | none => p

/-- `if status is not None: progress.status = status`. -/
def upStatus (u : UpdateCall) (p : ProgressData) : ProgressData :=
  match u.status with
  | some s => { p with status := s }
  | none => p

/-- `if phase is not None: progress.phase = phase`. -/
def upPhase (u : UpdateCall) (p : ProgressData) : ProgressData :=
  match u.phase with
  | some s => { p with phase := s }
  | none => p

/-- `if cards_found is not None: ...`. -/
def upCardsFound (u : UpdateCall) (p : ProgressData) : ProgressData :=
  match u.cards_found with
  | some v => { p with cards_found := v }
  | none => p

/-- `if cards_extracted is not None: ...`. -/
def upCardsExtracted (u : UpdateCall) (p : ProgressData) : ProgressData :=
  match u.cards_extracted with
  | some v => { p with cards_extracted := v }
  | none => p

/-- `if unique_results is not None: ...`. -/
def upUniqueResults (u : UpdateCall) (p : ProgressData) : ProgressData :=
  match u.unique_results with
  | some v => { p with unique_results := v }
  | none => p

/-- `if scrolls_done is not None: ...`. -/
def upScrollsDone (u : UpdateCall) (p : ProgressData) : ProgressData :=
  match u.scrolls_done with
  | some v => { p with scrolls_done := v }
  | none => p

/-- `if sample_result is not None`: store the sample and, when no explicit
preview was passed and the name is truthy, append it to a preview capped
at ten entries. -/
def upSample (u : UpdateCall) (p : ProgressData) : ProgressData :=
  match u.sample_result with
  | some r =>
    let q := { p with sample_result := some r }
    if u.results_preview = none ∧ truthyName r then
      if q.results_preview.length < 10 then
        { q with results_preview := q.results_preview ++ [r] }
      else q
    else q
  | none => p

/-- `if results_preview is not None: ...`. -/
def upPreview (u : UpdateCall) (p : ProgressData) : ProgressData :=
  match u.results_preview with
  | some l => { p with results_preview := l }
  | none => p

/-- `if error_message is not None: ...`. -/
def upError (u : UpdateCall) (p : ProgressData) : ProgressData :=
  match u.error_message with
  | some s => { p with error_message := some s }
  | none => p

/-- Body of `ScrapeProgressTracker.update` once the entry was found: the
field assignments of the source in order, then `last_update`. -/
def applyUpdate (p : ProgressData) (u : UpdateCall) (now : Nat) : ProgressData :=
  { upError u (upPreview u (upSample u (upScrollsDone u (upUniqueResults u
      (upCardsExtracted u (upCardsFound u (upPhase u (upStatus u
        (upPercent u p)))))))))
    with last_update := now }

/-- `ScrapeProgressTracker.update`: unknown `scrape_id` logs a warning and
returns without changing anything. -/
def update (m : TrackerMap) (sid : String) (u : UpdateCall) (now : Nat) : TrackerMap :=
  match List.lookup sid m with
  | none => m
  | some p => setEntry m sid (applyUpdate p u now)

/-- `ScrapeProgressTracker.complete_scrape` (the display-only `phase`
strings are abbreviated). -/
def complete_scrape (m : TrackerMap) (sid : String) (results : List ResultEntry)
    (success : Bool) (now : Nat) : TrackerMap :=
  match List.lookup sid m with
  | none => m
  | some p =>
    setEntry m sid
      { p with
        status := if success then "completed" else "failed",
        progress_percent := if success then 100 else p.progress_percent,
        phase := if success then "Complete!" else "Failed",
        final_results := some results,
        unique_results := results.length,
        last_update := now }

/-- `ScrapeProgressTracker.fail_scrape` (the display-only truncation of the
message inside `phase` is abbreviated). -/
def fail_scrape (m : TrackerMap) (sid : String) (error : String) (now : Nat) : TrackerMap :=
  match List.lookup sid m with
  | none => m
  | some p =>
    setEntry m sid
      { p with status := "failed", phase := "Error", error_message := some error,
               last_update := now }

/-- Stored `progress_percent` of one scrape id (0 when absent, matching the
dataclass default). -/
def percentOf (m : TrackerMap) (sid : String) : Nat :=
  match List.lookup sid m with
  | some p => p.progress_percent
  | none => 0

/-- Stored `status` of one scrape id. -/
def statusOf (m : TrackerMap) (sid : String) : Option String :=
  (List.lookup sid m).map (·.status)

/-- Apply a sequence of `update` calls (all with the same scrape id). -/
def runUpdates (m : TrackerMap) (sid : String) (calls : List (UpdateCall × Nat)) : TrackerMap :=
  calls.foldl (fun mm c => update mm sid c.1 c.2) m

/-- The successive tracker states along a sequence of `update` calls. -/
def updateStates (m : TrackerMap) (sid : String) (calls : List (UpdateCall × Nat)) :
    List TrackerMap :=
  calls.scanl (fun mm c => update mm sid c.1 c.2) m

/-- The `progress_percent` values actually provided along a sequence of
`update` calls. -/
def requestedPercents (calls : List (UpdateCall × Nat)) : List Nat :=
  calls.filterMap (fun c => c.1.progress_percent)

end Tracker

/-! ## BrowserSessionPool (backend/services/browser_session_pool.py)

The Playwright context and page handles in a `UserSession` are external
resources whose identity no claim inspects; the record keeps the lifecycle
bookkeeping the pool's control flow reads.  Timestamps are abstract ticks
(`datetime.utcnow()` values) supplied by the caller, with the idle and age
timeouts in the same unit. -/

namespace Pool

/-- `UserSession` bookkeeping fields. -/
structure UserSession where
  last_activity : Nat
  created_at : Nat
  scrape_count : Nat := 0
deriving DecidableEq

/-- `BrowserSessionPool` state: configuration, the per-user session dict,
and whether the shared browser has been launched. -/
structure PoolState where
  max_sessions : Nat
  idle_timeout : Nat
  session_max_age : Nat
  sessions : List (String × UserSession)
  browserStarted : Bool
deriving DecidableEq

/-- `BrowserSessionPool.__init__`. -/
def initPool (max_sessions idle_timeout session_max_age : Nat) : PoolState :=
  { max_sessions := max_sessions, idle_timeout := idle_timeout,
    session_max_age := session_max_age, sessions := [], browserStarted := false }

/-- `_cleanup_idle_sessions_sync`: close sessions idle longer than
`idle_timeout` or older than `session_max_age`; returns the cleaned state
and the number closed. -/
def cleanup_idle_sessions (st : PoolState) (now : Nat) : PoolState × Nat :=
  let keep := st.sessions.filter fun e =>
    !(decide (now - e.2.last_activity > st.idle_timeout) ||
      decide (now - e.2.created_at > st.session_max_age))
  ({ st with sessions := keep }, st.sessions.length - keep.length)

/-- Result of `get_session`: a reused or new session handle, or the
`RuntimeError` raised when the pool stays full after cleanup. -/
inductive GetResult where
  | reused
  | created
  | failed (msg : String)
deriving DecidableEq

/-- A fresh `UserSession` record. -/
def newSession (now : Nat) : UserSession :=
  { last_activity := now, created_at := now, scrape_count := 0 }

/-- `UserSession.update_activity`. -/
def updateActivity (s : UserSession) (now : Nat) : UserSession :=
  { s with last_activity := now, scrape_count := s.scrape_count + 1 }

/-- The `if not self.browser: await self.initialize()` step at the top of
`get_session`: ensure the shared browser is launched. -/
def ensureBrowser (st : PoolState) : PoolState :=
  if st.browserStarted then st else { st with browserStarted := true }

/-- `BrowserSessionPool.get_session` under the pool lock, after the browser
is ensured: reuse the user's session when present; otherwise, at the cap,
run eager cleanup and raise `RuntimeError` when still at the cap;
otherwise create a session. -/
def get_session_body (st : PoolState) (uid : String) (now : Nat) : GetResult × PoolState :=
  match List.lookup uid st.sessions with
  | some s =>
    (GetResult.reused,
     { st with sessions := st.sessions.map fun e =>
        if e.1 = uid then (uid, updateActivity s now) else e })
  | none =>
    if st.sessions.length ≥ st.max_sessions then
      if ((cleanup_idle_sessions st now).1).sessions.length ≥ st.max_sessions then
        (GetResult.failed
          "Maximum concurrent sessions reached. Please try again in a few minutes.",
         (cleanup_idle_sessions st now).1)
      else
        (GetResult.created,
         { (cleanup_idle_sessions st now).1 with
           sessions := ((cleanup_idle_sessions st now).1).sessions ++ [(uid, newSession now)] })
    else
      (GetResult.created, { st with sessions := st.sessions ++ [(uid, newSession now)] })

/-- `BrowserSessionPool.get_session`. -/
def get_session (st0 : PoolState) (uid : String) (now : Nat) : GetResult × PoolState :=
  get_session_body (ensureBrowser st0) uid now

/-- `BrowserSessionPool.release_session`. -/
def release_session (st : PoolState) (uid : String) : PoolState :=
  { st with sessions := st.sessions.filter fun e => !decide (e.1 = uid) }

/-- `BrowserSessionPool.shutdown`: every session is closed, the dict is
cleared, browser and Playwright are stopped. -/
def shutdown (st : PoolState) : PoolState :=
  { st with sessions := [], browserStarted := false }

/-- `get_active_sessions_count`. -/
def activeCount (st : PoolState) : Nat := st.sessions.length

/-- The pool operations a client or the background sweeper can perform. -/
inductive PoolOp where
  | get (uid : String) (now : Nat)
  | release (uid : String)
  | sweep (now : Nat)
  | shutdownOp

/-- One pool operation. -/
def runOp (st : PoolState) (op : PoolOp) : PoolState :=
  match op with
  | PoolOp.get uid now => (get_session st uid now).2
  | PoolOp.release uid => release_session st uid
  | PoolOp.sweep now => (cleanup_idle_sessions st now).1
  | PoolOp.shutdownOp => shutdown st

/-- A sequence of pool operations. -/
def runOps (st : PoolState) (ops : List PoolOp) : PoolState := ops.foldl runOp st

end Pool

/-! ## GoogleMapsScraper fragments (backend/services/scraper.py)

The pure computations of `scrape` and the `_collect_unique_card_links`
loop.  Browser I/O is modelled by a script: the list of result-card anchors
the page presents at each scroll iteration. -/

namespace Scraper

/-- `settings.STALE_SCROLL_LIMIT` default. -/
def STALE_SCROLL_LIMIT : Nat := 5

/-- `max_consecutive_seen` in `_collect_unique_card_links`. -/
def MAX_CONSECUTIVE_SEEN : Nat := 15

/-- `collection_target = int(target_count * buffer_multiplier)` with
`buffer_multiplier = 1.5 if seen_places else 1.2` (scraper.py lines
294-297).  `int()` truncates the float product toward zero; `1.5` is exact
in binary, and for the binary double nearest `1.2` the rounded product
never crosses an integer boundary (the deficit `n*4.44e-17` stays below
half an ulp of `1.2*n`), so for every realistic `target_count` (below
`2^53`) the truncated float equals the floor of the exact rational
product, which is what is written here. -/
def collection_target (target_count : Nat) (seen_nonempty : Bool) : Nat :=
  if seen_nonempty then target_count * 3 / 2 else target_count * 6 / 5

/-- `results = results[:target_count]` (scraper.py line 325). -/
def trim_results {α : Type} (results : List α) (target_count : Nat) : List α :=
  results.take target_count

/-- One result-card anchor as enumerated by
`page.locator('a[href*="/maps/place/"]').all()`: its `href` and
`aria-label` attributes (either may be missing). -/
structure Card where
  href : Option (List Nat)
  aria_label : Option (List Nat)

/-- Mutable state of `_collect_unique_card_links` together with the
`self.stats` counters it touches (`card_links` keeps insertion order, as a
Python dict does; the per-scroll log-only counters `scroll_seen_count` and
`scroll_new_count` are omitted). -/
structure CollectState where
  card_links : List (List Nat × (List Nat × Option (List Nat))) := []
  skipped_duplicates : Nat := 0
  consecutive_seen_duplicates : Nat := 0
  stale_count : Nat := 0
  scrolls_performed : Nat := 0
  stale_scrolls : Nat := 0
deriving DecidableEq

/-- The `card_name` computed from a card's `aria-label`
(`if aria_label and aria_label.strip(): card_name = aria_label.strip()`). -/
def cardNameOf (c : Card) : Option (List Nat) :=
  match c.aria_label with
  | some a => if pyStrip a = [] then none else some (pyStrip a)
  | none => none

/-- The body of the `for card in card_elements` loop; `Except.error`
carries the state at the early `return card_links` when the collection
target is reached. -/
def processCards (seen : List (List Nat)) (target : Nat) :
    List Card → CollectState → Except CollectState CollectState
  | [], st => Except.ok st
  | c :: cs, st =>
    match c.href with
    | none => processCards seen target cs st
    | some href =>
      if href = [] then processCards seen target cs st
      else
        match Dedup.extract_place_id href with
        | none => processCards seen target cs st
        | some place_id =>
          if place_id ∈ seen then
            if place_id ∉ st.card_links.map Prod.fst then
              processCards seen target cs
                { st with
                  skipped_duplicates := st.skipped_duplicates + 1,
                  consecutive_seen_duplicates := st.consecutive_seen_duplicates + 1 }
            else processCards seen target cs st
          else
            let st1 := { st with consecutive_seen_duplicates := 0 }
            if place_id ∉ st1.card_links.map Prod.fst then
              let st2 := { st1 with
                card_links := st1.card_links ++ [(place_id, (href, cardNameOf c))] }
              if st2.card_links.length ≥ target then Except.error st2
              else processCards seen target cs st2
            else processCards seen target cs st1

/-- The scroll loop of `_collect_unique_card_links`.  `script i` is the
anchor list the page presents at scroll iteration `i`; the remaining
iteration budget drives the `for scroll_num in range(max_scrolls)` loop. -/
def collectAux (seen : List (List Nat)) (target stale_limit : Nat)
    (script : Nat → List Card) : Nat → Nat → CollectState → CollectState
  | 0, _, st => st
  | fuel + 1, scroll_num, st =>
    let st := { st with scrolls_performed := st.scrolls_performed + 1 }
    let cards_before := st.card_links.length
    match processCards seen target (script scroll_num) st with
    | Except.error stDone => stDone
    | Except.ok st1 =>
      if st1.consecutive_seen_duplicates ≥ MAX_CONSECUTIVE_SEEN then st1
      else
        let new_cards := st1.card_links.length - cards_before
        if new_cards = 0 then
          let st2 := { st1 with stale_count := st1.stale_count + 1,
                                stale_scrolls := st1.stale_scrolls + 1 }
          if st2.stale_count ≥ stale_limit then st2
          else collectAux seen target stale_limit script fuel (scroll_num + 1) st2
        else
          let st2 := { st1 with stale_count := 0 }
          collectAux seen target stale_limit script fuel (scroll_num + 1) st2

/-- `_collect_unique_card_links(page, target_count, max_scrolls, seen_places)`,
returning the final state (its `card_links` field is the function's return
value, the counters live in `self.stats`). -/
def collect_unique_card_links (script : Nat → List Card) (target max_scrolls : Nat)
    (seen : List (List Nat)) : CollectState :=
  collectAux seen target STALE_SCROLL_LIMIT script max_scrolls 0 {}

end Scraper

/-! ## Python call binding (keyword arguments)

Two claims hinge on how CPython binds a call's arguments to a function's
parameter list: a keyword argument whose name is not among the parameters
raises `TypeError` before the function body runs. -/

/-- Does a call with `positional` positional arguments and the named
keyword arguments bind against a parameter list (no varargs, no
keyword-only parameters, `self` excluded)? -/
def callBinds (params : List String) (positional : Nat) (kwargs : List String) : Bool :=
  decide (positional ≤ params.length) &&
  kwargs.all (fun k => params.contains k) &&
  kwargs.all (fun k => !(params.take positional).contains k)

/-- The parameters of `GoogleMapsScraper.scrape` (scraper.py lines 186-192):
there is no `cursor` parameter. -/
def scrape_params : List String := ["query", "target_count", "max_scrolls", "seen_places"]

/-- The keyword arguments `_run_scrape_with_progress` passes to
`scraper.scrape(...)` (scraping.py lines 230-236). -/
def scrape_call_kwargs : List String :=
  ["query", "target_count", "max_scrolls", "seen_places", "cursor"]

/-- The parameters of `HistoryService.get_user_seen_places`
(history_service.py line 39): only `user_id`. -/
def get_user_seen_places_params : List String := ["user_id"]

/-- The keyword arguments of the call
`history_service.get_user_seen_places(str(user.id), query=request.search_query)`
(scraping.py lines 370-373): one positional argument plus the keyword
`query`. -/
def seen_places_call_kwargs : List String := ["query"]

/-! ## HistoryService (backend/services/history_service.py) and the
orchestrator's seen-places lookup (backend/routes/scraping.py) -/

namespace History

/-- A `user_places` row (the fields the seen-places claims read). -/
structure UserPlace where
  user_id : String
  place_id : String
  query_hash : Option String
deriving DecidableEq

/-- `HistoryService.get_user_seen_places(user_id)`: every place id of the
user, with no query filter (the unique constraint on
`(user_id, place_id)` keeps rows distinct). -/
def get_user_seen_places (db : List UserPlace) (user_id : String) : List String :=
  (db.filter fun r => decide (r.user_id = user_id)).map (·.place_id)

/-- The set of place ids recorded for one user and one exact query
identity.  This second definition follows the specification's words
("seen_places(user_id, query), filtered by the exact query identity") for
comparison with the code above, which has no such parameter. -/
def spec_seen_places_for_query (db : List UserPlace) (user_id : String)
    (qh : String) : List String :=
  (db.filter fun r => decide (r.user_id = user_id ∧ r.query_hash = some qh)).map (·.place_id)

/-- The seen-places acquisition in `scrape_query_async` (scraping.py lines
368-377): the call passes the keyword `query`, which
`get_user_seen_places` does not accept; the resulting `TypeError` is
caught by the surrounding `except`, which falls back to an empty set. -/
def orchestrator_seen_places (db : List UserPlace) (user_id : String)
    (_query : String) : List String :=
  if callBinds get_user_seen_places_params 1 seen_places_call_kwargs then
    get_user_seen_places db user_id
  else []

end History

/-! ## The background scrape task (backend/routes/scraping.py,
`_run_scrape_with_progress`) -/

namespace Orchestrator

/-- The cursor payload the route builds from a stored cursor row
(scraping.py lines 207-214). -/
structure CursorState where
  last_scroll_position : Nat
  cards_collected : Nat
  last_place_id : Option String
  last_card_index : Option Nat

/-- The outcome of the `scraper.scrape(query=..., target_count=...,
max_scrolls=..., seen_places=..., cursor=cursor)` invocation inside
`_run_scrape_with_progress`: CPython first binds the keyword arguments
against `scrape`'s parameters, raising `TypeError` on an unexpected
keyword before the pipeline body runs; `pipelineResult` stands for
whatever the pipeline would return if the call bound. -/
def scrape_invocation (pipelineResult : List Tracker.ResultEntry) :
    Except String (List Tracker.ResultEntry) :=
  if callBinds scrape_params 0 scrape_call_kwargs then Except.ok pipelineResult
  else Except.error "TypeError: scrape() got an unexpected keyword argument cursor"

/-- `_run_scrape_with_progress` after the scrape call returned or raised:
on an exception the outer handler marks progress failed; on success the
persistence block (place-id upsert, cursor update, session-row creation
and completion, modelled by `persist` acting on an abstract store `δ`)
runs inside `try/except Exception`, whose handler only logs, and the
progress entry is then completed with the extracted results. -/
def run_scrape_with_progress {δ : Type} (m : Tracker.TrackerMap) (sid : String)
    (scrape_result : Except String (List Tracker.ResultEntry))
    (persist : δ → Except String δ) (db : δ) (now : Nat) :
    Tracker.TrackerMap × δ :=
  match scrape_result with
  | Except.error e => (Tracker.fail_scrape m sid e now, db)
  | Except.ok results =>
    let db1 := match persist db with
      | Except.ok d => d
      | Except.error _ => db
    (Tracker.complete_scrape m sid results true now, db1)

end Orchestrator

/-! ## Concrete data used by counterexamples and witnesses -/

/-- A result card whose place id `0xab` will be in the seen set. -/
def seenCard : Scraper.Card :=
  { href := some (strCodes "/maps/place/A!1s0xab:0xcd"),
    aria_label := some (strCodes "A Biz") }

/-- A result card with the fresh place id `0xbeef`. -/
def freshCard : Scraper.Card :=
  { href := some (strCodes "/maps/place/B!1s0xbeef:0x1a"), aria_label := none }

/-- A two-iteration page script: the feed shows the already-seen card on
both scroll iterations (as the real feed does, earlier cards stay in the
DOM), plus one new card on the second. -/
def twoScrollScript : Nat → List Scraper.Card :=
  fun i => if i = 0 then [seenCard] else [seenCard, freshCard]

/-- A pool of capacity one holding a fresh session for user `u1`. -/
def onePool : Pool.PoolState :=
  { max_sessions := 1, idle_timeout := 30, session_max_age := 120,
    sessions := [("u1", { last_activity := 0, created_at := 0, scrape_count := 0 })],
    browserStarted := true }

/-! ## Supporting lemmas: progress tracker -/

namespace Tracker

theorem lookup_map_replace (sid : String) (p : ProgressData) :
    ∀ m : TrackerMap, (List.lookup sid m).isSome = true →
      List.lookup sid (m.map (fun e => if e.1 = sid then (sid, p) else e)) = some p := by
  intro m
  induction m with
  | nil => intro h; simp [List.lookup] at h
  | cons e t ih =>
    intro h
    by_cases he : e.1 = sid
    · rw [List.map_cons, if_pos he]
      simp [List.lookup]
    · have hb : (sid == e.1) = false := by
        simp only [beq_eq_false_iff_ne, ne_eq]
        exact fun hc => he hc.symm
      rw [List.map_cons, if_neg he]
      simp only [List.lookup, hb]
      apply ih
      simpa [List.lookup, hb] using h

theorem lookup_append_right (sid : String) (m l : TrackerMap)
    (h : List.lookup sid m = none) : List.lookup sid (m ++ l) = List.lookup sid l := by
  induction m with
  | nil => rfl
  | cons e t ih =>
    cases hb : (sid == e.1) with
    | true => simp [List.lookup, hb] at h
    | false =>
      simp only [List.lookup, hb] at h
      simpa [List.lookup, hb] using ih h

theorem lookup_setEntry (m : TrackerMap) (sid : String) (p : ProgressData) :
    List.lookup sid (setEntry m sid p) = some p := by
  unfold setEntry
  cases h : (List.lookup sid m).isSome with
  | true => simp only [h, if_true]; exact lookup_map_replace sid p m h
  | false =>
    have hn : List.lookup sid m = none := by
      cases hx : List.lookup sid m with
      | none => rfl
      | some q => rw [hx] at h; simp at h
    simp only [h, Bool.false_eq_true, if_false]
    rw [lookup_append_right sid m _ hn]
    simp [List.lookup]

theorem upStatus_percent (u : UpdateCall) (p : ProgressData) :
    (upStatus u p).progress_percent = p.progress_percent := by
  unfold upStatus; cases u.status <;> rfl

theorem upPhase_percent (u : UpdateCall) (p : ProgressData) :
    (upPhase u p).progress_percent = p.progress_percent := by
  unfold upPhase; cases u.phase <;> rfl

theorem upCardsFound_percent (u : UpdateCall) (p : ProgressData) :
    (upCardsFound u p).progress_percent = p.progress_percent := by
  unfold upCardsFound; cases u.cards_found <;> rfl

theorem upCardsExtracted_percent (u : UpdateCall) (p : ProgressData) :
    (upCardsExtracted u p).progress_percent = p.progress_percent := by
  unfold upCardsExtracted; cases u.cards_extracted <;> rfl

theorem upUniqueResults_percent (u : UpdateCall) (p : ProgressData) :
    (upUniqueResults u p).progress_percent = p.progress_percent := by
  unfold upUniqueResults; cases u.unique_results <;> rfl

theorem upScrollsDone_percent (u : UpdateCall) (p : ProgressData) :
    (upScrollsDone u p).progress_percent = p.progress_percent := by
  unfold upScrollsDone; cases u.scrolls_done <;> rfl

theorem upSample_percent (u : UpdateCall) (p : ProgressData) :
    (upSample u p).progress_percent = p.progress_percent := by
  unfold upSample
  cases u.sample_result with
  | none => rfl
  | some r =>
    simp only []
    split
    · split <;> rfl
    · rfl

theorem upPreview_percent (u : UpdateCall) (p : ProgressData) :
    (upPreview u p).progress_percent = p.progress_percent := by
  unfold upPreview; cases u.results_preview <;> rfl

theorem upError_percent (u : UpdateCall) (p : ProgressData) :
    (upError u p).progress_percent = p.progress_percent := by
  unfold upError; cases u.error_message <;> rfl

theorem applyUpdate_percent (p : ProgressData) (u : UpdateCall) (now : Nat) :
    (applyUpdate p u now).progress_percent = (upPercent u p).progress_percent := by
  unfold applyUpdate
  simp [upError_percent, upPreview_percent, upSample_percent, upScrollsDone_percent,
    upUniqueResults_percent, upCardsExtracted_percent, upCardsFound_percent,
    upPhase_percent, upStatus_percent]

theorem upPercent_some {u : UpdateCall} {v : Nat} (p : ProgressData)
    (h : u.progress_percent = some v) :
    (upPercent u p).progress_percent = min v 100 := by
  unfold upPercent; rw [h]

theorem upPercent_none {u : UpdateCall} (p : ProgressData)
    (h : u.progress_percent = none) :
    (upPercent u p).progress_percent = p.progress_percent := by
  unfold upPercent; rw [h]

theorem update_absent (m : TrackerMap) (sid : String) (u : UpdateCall) (now : Nat)
    (h : List.lookup sid m = none) : update m sid u now = m := by
  unfold update; rw [h]

theorem percentOf_of_lookup {m : TrackerMap} {sid : String} {p : ProgressData}
    (h : List.lookup sid m = some p) : percentOf m sid = p.progress_percent := by
  unfold percentOf; rw [h]

theorem percentOf_update_some {m : TrackerMap} {sid : String} {p : ProgressData}
    {u : UpdateCall} {v : Nat} (now : Nat)
    (hm : List.lookup sid m = some p) (hu : u.progress_percent = some v) :
    percentOf (update m sid u now) sid = min v 100 := by
  unfold update
  rw [hm, percentOf_of_lookup (lookup_setEntry m sid _),
    applyUpdate_percent, upPercent_some p hu]

theorem percentOf_update_none {m : TrackerMap} {sid : String} {p : ProgressData}
    {u : UpdateCall} (now : Nat)
    (hm : List.lookup sid m = some p) (hu : u.progress_percent = none) :
    percentOf (update m sid u now) sid = percentOf m sid := by
  unfold update
  rw [hm, percentOf_of_lookup (lookup_setEntry m sid _),
    applyUpdate_percent, upPercent_none p hu, percentOf_of_lookup hm]

theorem chain_le_cons_weaken {l : List Nat} {a b : Nat} (hab : a ≤ b)
    (h : List.Chain' (· ≤ ·) (b :: l)) : List.Chain' (· ≤ ·) (a :: l) := by
  cases l with
  | nil => simp
  | cons c t =>
    rw [List.chain'_cons] at h ⊢
    exact ⟨le_trans hab h.1, h.2⟩

theorem scanl_head {α β : Type} (f : β → α → β) (b : β) (l : List α) :
    ∃ t, List.scanl f b l = b :: t := by
  cases l with
  | nil => exact ⟨[], rfl⟩
  | cons a l => exact ⟨List.scanl f (f b a) l, rfl⟩

theorem requestedPercents_cons (c : UpdateCall × Nat) (rest : List (UpdateCall × Nat)) :
    requestedPercents (c :: rest) =
      match c.1.progress_percent with
      | some v => v :: requestedPercents rest
      | none => requestedPercents rest := by
  cases hp : c.1.progress_percent <;> simp [requestedPercents, hp]

theorem percent_monotone_of_requested_monotone :
    ∀ (calls : List (UpdateCall × Nat)) (m : TrackerMap) (sid : String),
      percentOf m sid ≤ 100 →
      List.Chain' (· ≤ ·) (percentOf m sid :: requestedPercents calls) →
      List.Chain' (· ≤ ·)
        ((updateStates m sid calls).map (fun mm => percentOf mm sid)) := by
  intro calls
  induction calls with
  | nil => intro m sid _ _; simp [updateStates]
  | cons c rest ih =>
    intro m sid h100 hchain
    rw [requestedPercents_cons] at hchain
    rw [updateStates, List.scanl_cons]
    simp only [List.singleton_append, List.map_cons]
    set m2 := update m sid c.1 c.2 with hm2
    have key : percentOf m sid ≤ percentOf m2 sid ∧ percentOf m2 sid ≤ 100 ∧
        List.Chain' (· ≤ ·) (percentOf m2 sid :: requestedPercents rest) := by
      cases hm : List.lookup sid m with
      | none =>
        have heq : m2 = m := update_absent m sid c.1 c.2 hm
        rw [heq]
        refine ⟨le_refl _, h100, ?_⟩
        cases hp : c.1.progress_percent with
        | none => rw [hp] at hchain; exact hchain
        | some v =>
          rw [hp, List.chain'_cons] at hchain
          exact chain_le_cons_weaken hchain.1 hchain.2
      | some p =>
        cases hp : c.1.progress_percent with
        | none =>
          have hpc : percentOf m2 sid = percentOf m sid :=
            percentOf_update_none c.2 hm hp
          rw [hp] at hchain
          exact ⟨le_of_eq hpc.symm, by rw [hpc]; exact h100, by rw [hpc]; exact hchain⟩
        | some v =>
          have hpc : percentOf m2 sid = min v 100 :=
            percentOf_update_some c.2 hm hp
          rw [hp, List.chain'_cons] at hchain
          refine ⟨by rw [hpc]; exact le_min hchain.1 h100,
            by rw [hpc]; exact min_le_right v 100, ?_⟩
          rw [hpc]
          exact chain_le_cons_weaken (min_le_left v 100) hchain.2
    have hrest := ih m2 sid key.2.1 key.2.2
    rw [updateStates] at hrest
    obtain ⟨tl, htl⟩ := scanl_head (fun mm cc => update mm sid cc.1 cc.2) m2 rest
    rw [htl] at hrest ⊢
    rw [List.map_cons] at hrest ⊢
    rw [List.chain'_cons]
    exact ⟨key.1, hrest⟩

end Tracker

/-! ## Supporting lemmas: browser session pool -/

namespace Pool

theorem cleanup_sessions_le (st : PoolState) (now : Nat) :
    ((cleanup_idle_sessions st now).1).sessions.length ≤ st.sessions.length :=
  List.length_filter_le _ _

theorem cleanup_preserves_config (st : PoolState) (now : Nat) :
    ((cleanup_idle_sessions st now).1).max_sessions = st.max_sessions ∧
    ((cleanup_idle_sessions st now).1).browserStarted = st.browserStarted := by
  constructor <;> rfl

theorem runOp_inv (st : PoolState) (op : PoolOp)
    (h : st.sessions.length ≤ st.max_sessions) :
    (runOp st op).sessions.length ≤ (runOp st op).max_sessions ∧
    (runOp st op).max_sessions = st.max_sessions := by
  cases op with
  | get uid now =>
    show (get_session st uid now).2.sessions.length ≤ (get_session st uid now).2.max_sessions ∧
      (get_session st uid now).2.max_sessions = st.max_sessions
    unfold get_session get_session_body
    set st0 := ensureBrowser st with hst0
    have hsess : st0.sessions = st.sessions := by
      rw [hst0]; unfold ensureBrowser; split <;> rfl
    have hmax : st0.max_sessions = st.max_sessions := by
      rw [hst0]; unfold ensureBrowser; split <;> rfl
    cases hlk : List.lookup uid st0.sessions with
    | some s =>
      dsimp only
      refine ⟨?_, hmax⟩
      rw [List.length_map, hsess, hmax]
      exact h
    | none =>
      dsimp only
      by_cases hfull : st0.sessions.length ≥ st0.max_sessions
      · rw [if_pos hfull]
        by_cases hstill :
            ((cleanup_idle_sessions st0 now).1).sessions.length ≥ st0.max_sessions
        · rw [if_pos hstill]
          refine ⟨?_, hmax⟩
          rw [(cleanup_preserves_config st0 now).1, hmax]
          calc ((cleanup_idle_sessions st0 now).1).sessions.length
              ≤ st0.sessions.length := cleanup_sessions_le st0 now
            _ = st.sessions.length := by rw [hsess]
            _ ≤ st.max_sessions := h
        · rw [if_neg hstill]
          refine ⟨?_, hmax⟩
          rw [List.length_append, List.length_cons, List.length_nil]
          dsimp only [cleanup_idle_sessions] at hstill ⊢
          omega
      · rw [if_neg hfull]
        refine ⟨?_, hmax⟩
        rw [List.length_append, List.length_cons, List.length_nil]
        dsimp only
        have hlen : st0.sessions.length = st.sessions.length := by rw [hsess]
        omega
  | release uid =>
    exact ⟨le_trans (List.length_filter_le _ _) h, rfl⟩
  | sweep now =>
    exact ⟨le_trans (cleanup_sessions_le st now) h, rfl⟩
  | shutdownOp =>
    exact ⟨Nat.zero_le _, rfl⟩

theorem runOps_inv : ∀ (ops : List PoolOp) (st : PoolState),
    st.sessions.length ≤ st.max_sessions →
    (runOps st ops).sessions.length ≤ (runOps st ops).max_sessions ∧
    (runOps st ops).max_sessions = st.max_sessions := by
  intro ops
  induction ops with
  | nil => intro st h; exact ⟨h, rfl⟩
  | cons op rest ih =>
    intro st h
    have hstep := runOp_inv st op h
    have hrest := ih (runOp st op) hstep.1
    exact ⟨hrest.1, hrest.2.trans hstep.2⟩

end Pool

/-! ## Supporting lemmas: regex models -/

namespace Dedup

theorem takeWhile_append_all {p : Nat → Bool} :
    ∀ (l r : List Nat), (∀ c ∈ l, p c = true) →
      (r = [] ∨ ∃ c rs, r = c :: rs ∧ p c = false) →
      (l ++ r).takeWhile p = l ∧ (l ++ r).dropWhile p = r := by
  intro l
  induction l with
  | nil =>
    intro r _ hr
    rcases hr with rfl | ⟨c, rs, rfl, hc⟩
    · exact ⟨rfl, rfl⟩
    · simp [List.takeWhile_cons, List.dropWhile_cons, hc]
  | cons a l ih =>
    intro r hall hr
    have ha : p a = true := hall a (List.mem_cons_self a l)
    have htl := ih r (fun c hc => hall c (List.mem_cons_of_mem a hc)) hr
    constructor
    · rw [List.cons_append, List.takeWhile_cons, ha]
      simp [htl.1]
    · rw [List.cons_append, List.dropWhile_cons, ha]
      simp [htl.2]

theorem isEmpty_false_of_ne_nil {l : List Nat} (h : l ≠ []) : l.isEmpty = false := by
  cases l with
  | nil => exact absurd rfl h
  | cons a t => rfl

theorem matchFeatureAt_exact {r1 r2 : List Nat} (h1 : r1 ≠ []) (h2 : r2 ≠ [])
    (ha : ∀ c ∈ r1, isHexDigitB c = true) (hb : ∀ c ∈ r2, isHexDigitB c = true) :
    matchFeatureAt (48 :: 120 :: (r1 ++ 58 :: 48 :: 120 :: r2)) =
      some (48 :: 120 :: r1, 48 :: 120 :: r2) := by
  have hcolon : (58 :: 48 :: 120 :: r2 = []) ∨
      ∃ c rs, 58 :: 48 :: 120 :: r2 = c :: rs ∧ isHexDigitB c = false :=
    Or.inr ⟨58, 48 :: 120 :: r2, rfl, by decide⟩
  have hsplit := takeWhile_append_all r1 (58 :: 48 :: 120 :: r2) ha hcolon
  have hr2 : (r2 ++ ([] : List Nat)).takeWhile isHexDigitB = r2 ∧
      (r2 ++ ([] : List Nat)).dropWhile isHexDigitB = [] :=
    takeWhile_append_all r2 [] hb (Or.inl rfl)
  rw [List.append_nil] at hr2
  simp only [matchFeatureAt]
  rw [if_pos (show isZeroX 48 120 = true from by decide), hsplit.1, hsplit.2,
    isEmpty_false_of_ne_nil h1]
  simp only [Bool.false_eq_true, if_false]
  rw [if_pos (show isZeroX 48 120 = true from by decide), hr2.1,
    isEmpty_false_of_ne_nil h2]
  simp only [Bool.false_eq_true, if_false]

end Dedup

/-! ## Supporting lemmas: string primitives and the normalizer -/

theorem pyLower_idem (n : Nat) : pyLower (pyLower n) = pyLower n := by
  by_cases h : 65 ≤ n ∧ n ≤ 90
  · have h1 : pyLower n = n + 32 := by unfold pyLower; rw [if_pos h]
    rw [h1]
    unfold pyLower
    rw [if_neg (by omega)]
  · have h1 : pyLower n = n := by unfold pyLower; rw [if_neg h]
    rw [h1, h1]

theorem goodChar_of_subst_lower (x : Nat)
    (hns : isSpaceB (substPunct (pyLower x)) = false) :
    GoodChar (substPunct (pyLower x)) := by
  unfold substPunct at hns ⊢
  by_cases hk : isKeepB (pyLower x) = true
  · rw [if_pos hk] at hns ⊢
    exact ⟨hk, hns, pyLower_idem x⟩
  · rw [if_neg hk] at hns
    exact absurd hns (by decide)

theorem goodChar_lt {c : Nat} (h : GoodChar c) : c < 55296 := by
  rcases h with ⟨hk, hs, -⟩
  unfold isKeepB isWordCharB at hk
  rw [hs] at hk
  simp only [Bool.or_eq_true, Bool.and_eq_true, decide_eq_true_eq, Bool.or_false] at hk
  omega

theorem goodChar_lower_fix {c : Nat} (h : GoodChar c) : pyLower c = c := h.2.2

theorem goodChar_subst_fix {c : Nat} (h : GoodChar c) : substPunct c = c := by
  unfold substPunct
  rw [if_pos h.1]

theorem mapFix {f : Nat → Nat} : ∀ l : List Nat, (∀ c ∈ l, f c = c) → l.map f = l := by
  intro l h
  induction l with
  | nil => rfl
  | cons a t ih =>
    rw [List.map_cons, h a (List.mem_cons_self a t),
      ih (fun c hc => h c (List.mem_cons_of_mem a hc))]

theorem mem_pyStrip {c : Nat} {l : List Nat} (h : c ∈ pyStrip l) : c ∈ l := by
  unfold pyStrip at h
  have h1 : c ∈ l.dropWhile isSpaceB :=
    List.Sublist.mem h (List.IsPrefix.sublist (List.rdropWhile_prefix _ _))
  exact List.Sublist.mem h1 (List.dropWhile_sublist _)

theorem mem_collapseWs : ∀ (l : List Nat) (c : Nat),
    c ∈ collapseWs l → c = 32 ∨ c ∈ l := by
  intro l
  induction l with
  | nil => intro c hc; simp [collapseWs] at hc
  | cons a rest ih =>
    intro c hc
    cases rest with
    | nil =>
      by_cases hsp : isSpaceB a = true
      · rw [show collapseWs [a] = [32] from by simp only [collapseWs]; rw [if_pos hsp]] at hc
        exact Or.inl (List.mem_singleton.mp hc)
      · rw [show collapseWs [a] = [a] from by simp only [collapseWs]; rw [if_neg hsp]] at hc
        exact Or.inr hc
    | cons d rest2 =>
      by_cases hsa : isSpaceB a = true
      · by_cases hsd : isSpaceB d = true
        · rw [show collapseWs (a :: d :: rest2) = collapseWs (d :: rest2) from by
            simp only [collapseWs]; rw [if_pos hsa, if_pos hsd]] at hc
          rcases ih c hc with h32 | hmem
          · exact Or.inl h32
          · exact Or.inr (List.mem_cons_of_mem a hmem)
        · rw [show collapseWs (a :: d :: rest2) = 32 :: collapseWs (d :: rest2) from by
            simp only [collapseWs]; rw [if_pos hsa, if_neg hsd]] at hc
          rcases List.mem_cons.mp hc with h32 | hc2
          · exact Or.inl h32
          · rcases ih c hc2 with h32 | hmem
            · exact Or.inl h32
            · exact Or.inr (List.mem_cons_of_mem a hmem)
      · rw [show collapseWs (a :: d :: rest2) = a :: collapseWs (d :: rest2) from by
          simp only [collapseWs]; rw [if_neg hsa]] at hc
        rcases List.mem_cons.mp hc with hca | hc2
        · exact Or.inr (hca ▸ List.mem_cons_self a (d :: rest2))
        · rcases ih c hc2 with h32 | hmem
          · exact Or.inl h32
          · exact Or.inr (List.mem_cons_of_mem a hmem)

theorem splitAux_nil (acc : List Nat) :
    splitAux [] acc = if acc.isEmpty then [] else [acc.reverse] := rfl

theorem splitAux_cons (c : Nat) (rest acc : List Nat) :
    splitAux (c :: rest) acc =
      if isSpaceB c then
        (if acc.isEmpty then splitAux rest [] else acc.reverse :: splitAux rest [])
      else splitAux rest (c :: acc) := rfl

theorem rev_tok {P : Nat → Prop} {acc : List Nat} (he : ¬ acc.isEmpty = true)
    (hacc : ∀ c ∈ acc, P c) : acc.reverse ≠ [] ∧ ∀ c ∈ acc.reverse, P c := by
  constructor
  · intro hrev
    rw [List.reverse_eq_nil_iff] at hrev
    rw [hrev] at he
    exact he rfl
  · intro c hc
    exact hacc c (List.mem_reverse.mp hc)

theorem spaceB_false_of_not {a : Nat} (h : ¬ isSpaceB a = true) : isSpaceB a = false := by
  cases hb : isSpaceB a with
  | true => exact absurd hb h
  | false => rfl

theorem splitAux_wf (P : Nat → Prop) :
    ∀ (cs acc : List Nat), (∀ c ∈ cs, isSpaceB c = false → P c) → (∀ c ∈ acc, P c) →
      ∀ t ∈ splitAux cs acc, t ≠ [] ∧ ∀ c ∈ t, P c := by
  intro cs
  induction cs with
  | nil =>
    intro acc _ hacc t ht
    simp only [splitAux] at ht
    by_cases he : acc.isEmpty = true
    · rw [if_pos he] at ht
      simp at ht
    · rw [if_neg he] at ht
      rw [List.mem_singleton] at ht
      subst ht
      exact rev_tok he hacc
  | cons a rest ih =>
    intro acc hcs hacc t ht
    simp only [splitAux] at ht
    by_cases hsp : isSpaceB a = true
    · rw [if_pos hsp] at ht
      by_cases he : acc.isEmpty = true
      · rw [if_pos he] at ht
        exact ih [] (fun c hc h => hcs c (List.mem_cons_of_mem a hc) h) (by simp) t ht
      · rw [if_neg he] at ht
        rcases List.mem_cons.mp ht with hrev | ht2
        · subst hrev
          exact rev_tok he hacc
        · exact ih [] (fun c hc h => hcs c (List.mem_cons_of_mem a hc) h) (by simp) t ht2
    · rw [if_neg hsp] at ht
      have hPa : P a := hcs a (List.mem_cons_self a rest) (spaceB_false_of_not hsp)
      refine ih (a :: acc) (fun c hc h => hcs c (List.mem_cons_of_mem a hc) h) ?_ t ht
      intro c hc
      rcases List.mem_cons.mp hc with rfl | hc2
      · exact hPa
      · exact hacc c hc2

theorem splitAux_append_word :
    ∀ (t r acc : List Nat), (∀ c ∈ t, isSpaceB c = false) →
      splitAux (t ++ r) acc = splitAux r (t.reverse ++ acc) := by
  intro t
  induction t with
  | nil => intro r acc _; simp
  | cons c t' ih =>
    intro r acc hns
    have hc : ¬ isSpaceB c = true := by
      rw [hns c (List.mem_cons_self c t')]
      exact Bool.false_ne_true
    rw [List.cons_append]
    simp only [splitAux]
    rw [if_neg hc, ih r (c :: acc) (fun x hx => hns x (List.mem_cons_of_mem c hx)),
      List.reverse_cons, List.append_assoc, List.singleton_append]

theorem splitAux_spaces :
    ∀ (s : List Nat), (∀ c ∈ s, isSpaceB c = true) → ∀ acc : List Nat,
      splitAux s acc = if acc.isEmpty then [] else [acc.reverse] := by
  intro s
  induction s with
  | nil => intro _ acc; rfl
  | cons c rest ih =>
    intro hall acc
    have hc := hall c (List.mem_cons_self c rest)
    have hrest := ih (fun x hx => hall x (List.mem_cons_of_mem c hx))
    simp only [splitAux]
    rw [if_pos hc]
    by_cases he : acc.isEmpty = true
    · rw [if_pos he, if_pos he, hrest []]
      rfl
    · rw [if_neg he, if_neg he, hrest []]
      rfl

theorem splitAux_append_spaces (s : List Nat) (hs : ∀ c ∈ s, isSpaceB c = true) :
    ∀ (x acc : List Nat), splitAux (x ++ s) acc = splitAux x acc := by
  intro x
  induction x with
  | nil =>
    intro acc
    rw [List.nil_append, splitAux_spaces s hs acc]
    rfl
  | cons c rest ih =>
    intro acc
    rw [List.cons_append]
    simp only [splitAux]
    by_cases hc : isSpaceB c = true
    · rw [if_pos hc, if_pos hc]
      by_cases he : acc.isEmpty = true
      · rw [if_pos he, if_pos he, ih []]
      · rw [if_neg he, if_neg he, ih []]
    · rw [if_neg hc, if_neg hc, ih (c :: acc)]

theorem pySplitWs_dropWhile : ∀ x : List Nat,
    pySplitWs (x.dropWhile isSpaceB) = pySplitWs x := by
  intro x
  induction x with
  | nil => rfl
  | cons c rest ih =>
    by_cases hc : isSpaceB c = true
    · rw [List.dropWhile_cons, if_pos hc]
      rw [ih]
      show pySplitWs rest = pySplitWs (c :: rest)
      unfold pySplitWs
      simp only [splitAux]
      rw [if_pos hc]
      rfl
    · rw [List.dropWhile_cons, if_neg hc]

theorem rdrop_append_rtake (p : Nat → Bool) (l : List Nat) :
    List.rdropWhile p l ++ List.rtakeWhile p l = l := by
  unfold List.rdropWhile List.rtakeWhile
  rw [← List.reverse_append, List.takeWhile_append_dropWhile, List.reverse_reverse]

theorem pySplitWs_pyStrip (x : List Nat) : pySplitWs (pyStrip x) = pySplitWs x := by
  unfold pyStrip
  have hdec := rdrop_append_rtake isSpaceB (x.dropWhile isSpaceB)
  have hsp : ∀ c ∈ List.rtakeWhile isSpaceB (x.dropWhile isSpaceB), isSpaceB c = true :=
    fun c hc => List.mem_rtakeWhile_imp hc
  have h1 := splitAux_append_spaces _ hsp
    (List.rdropWhile isSpaceB (x.dropWhile isSpaceB)) []
  calc pySplitWs (List.rdropWhile isSpaceB (x.dropWhile isSpaceB))
      = pySplitWs (List.rdropWhile isSpaceB (x.dropWhile isSpaceB) ++
          List.rtakeWhile isSpaceB (x.dropWhile isSpaceB)) := h1.symm
    _ = pySplitWs (x.dropWhile isSpaceB) := by rw [hdec]
    _ = pySplitWs x := pySplitWs_dropWhile x

theorem splitAux_collapse : ∀ (l acc : List Nat),
    splitAux (collapseWs l) acc = splitAux l acc := by
  intro l
  induction l with
  | nil => intro acc; rfl
  | cons a rest ih =>
    intro acc
    cases rest with
    | nil =>
      by_cases hsp : isSpaceB a = true
      · rw [show collapseWs [a] = [32] from by simp only [collapseWs]; rw [if_pos hsp]]
        rw [splitAux_cons 32 [] acc, if_pos (show isSpaceB 32 = true from by decide),
          splitAux_cons a [] acc, if_pos hsp]
      · rw [show collapseWs [a] = [a] from by simp only [collapseWs]; rw [if_neg hsp]]
    | cons d rest2 =>
      by_cases hsa : isSpaceB a = true
      · by_cases hsd : isSpaceB d = true
        · rw [show collapseWs (a :: d :: rest2) = collapseWs (d :: rest2) from by
            simp only [collapseWs]; rw [if_pos hsa, if_pos hsd]]
          rw [ih acc]
          rw [splitAux_cons d rest2 acc, if_pos hsd,
            splitAux_cons a (d :: rest2) acc, if_pos hsa,
            splitAux_cons d rest2 [], if_pos hsd,
            if_pos (show (([] : List Nat)).isEmpty = true from rfl)]
        · rw [show collapseWs (a :: d :: rest2) = 32 :: collapseWs (d :: rest2) from by
            simp only [collapseWs]; rw [if_pos hsa, if_neg hsd]]
          rw [splitAux_cons 32 (collapseWs (d :: rest2)) acc,
            if_pos (show isSpaceB 32 = true from by decide), ih [],
            splitAux_cons a (d :: rest2) acc, if_pos hsa]
      · rw [show collapseWs (a :: d :: rest2) = a :: collapseWs (d :: rest2) from by
          simp only [collapseWs]; rw [if_neg hsa]]
        rw [splitAux_cons a (collapseWs (d :: rest2)) acc, if_neg hsa, ih (a :: acc),
          splitAux_cons a (d :: rest2) acc, if_neg hsa]

theorem pySplitWs_collapse (l : List Nat) :
    pySplitWs (collapseWs l) = pySplitWs l :=
  splitAux_collapse l []

theorem joinSep_cons2 (t t2 : List Nat) (ts : List (List Nat)) :
    joinSep (t :: t2 :: ts) = t ++ 32 :: joinSep (t2 :: ts) := rfl

theorem reverse_isEmpty_false {t : List Nat} (h : t ≠ []) :
    t.reverse.isEmpty = false :=
  Dedup.isEmpty_false_of_ne_nil (by
    intro hrev
    exact h (by rwa [List.reverse_eq_nil_iff] at hrev))

theorem pySplit_joinSep : ∀ T : List (List Nat),
    (∀ t ∈ T, t ≠ [] ∧ ∀ c ∈ t, isSpaceB c = false) → pySplitWs (joinSep T) = T := by
  intro T
  induction T with
  | nil => intro _; rfl
  | cons t ts ih =>
    intro hT
    have ht := hT t (List.mem_cons_self t ts)
    have hne : t.reverse.isEmpty = false := reverse_isEmpty_false ht.1
    cases ts with
    | nil =>
      show pySplitWs t = [t]
      unfold pySplitWs
      have hsplit := splitAux_append_word t [] [] ht.2
      rw [List.append_nil, List.append_nil] at hsplit
      rw [hsplit, splitAux_nil,
        if_neg (by rw [hne]; exact Bool.false_ne_true), List.reverse_reverse]
    | cons t2 ts2 =>
      rw [joinSep_cons2]
      show splitAux (t ++ 32 :: joinSep (t2 :: ts2)) [] = t :: t2 :: ts2
      rw [splitAux_append_word t _ [] ht.2, List.append_nil,
        splitAux_cons 32 (joinSep (t2 :: ts2)) t.reverse,
        if_pos (show isSpaceB 32 = true from by decide),
        if_neg (by rw [hne]; exact Bool.false_ne_true), List.reverse_reverse]
      have hrest := ih (fun u hu => hT u (List.mem_cons_of_mem t hu))
      rw [show splitAux (joinSep (t2 :: ts2)) [] = pySplitWs (joinSep (t2 :: ts2)) from rfl,
        hrest]

theorem mem_joinSep : ∀ (T : List (List Nat)) (c : Nat),
    c ∈ joinSep T → c = 32 ∨ ∃ t ∈ T, c ∈ t := by
  intro T
  induction T with
  | nil => intro c hc; simp [joinSep] at hc
  | cons t ts ih =>
    intro c hc
    cases ts with
    | nil => exact Or.inr ⟨t, List.mem_cons_self t [], hc⟩
    | cons t2 ts2 =>
      rw [joinSep_cons2] at hc
      rcases List.mem_append.mp hc with hct | hc2
      · exact Or.inr ⟨t, List.mem_cons_self t (t2 :: ts2), hct⟩
      · rcases List.mem_cons.mp hc2 with rfl | hc3
        · exact Or.inl rfl
        · rcases ih c hc3 with h32 | ⟨u, hu, hcu⟩
          · exact Or.inl h32
          · exact Or.inr ⟨u, List.mem_cons_of_mem t hu, hcu⟩

theorem sortTokens_mem {t : List Nat} {l : List (List Nat)} :
    t ∈ sortTokens l ↔ t ∈ l :=
  List.mem_insertionSort lexLe

theorem sortTokens_idem (l : List (List Nat)) :
    sortTokens (sortTokens l) = sortTokens l :=
  List.Sorted.insertionSort_eq (List.sorted_insertionSort lexLe l)

theorem toNat_ofNat_valid (n : Nat) (h : n < 55296) : (Char.ofNat n).toNat = n := by
  have hv : n.isValidChar := Or.inl h
  rw [Char.ofNat, dif_pos hv]
  show (BitVec.ofNatLt n _).toNat = n
  rfl

namespace QueryNormalizer

theorem q3good (cs : List Nat) :
    ∀ c ∈ pyStrip (collapseWs ((pyStrip (cs.map pyLower)).map substPunct)),
      isSpaceB c = false → GoodChar c := by
  intro c hc hns
  have hc2 := mem_pyStrip hc
  rcases mem_collapseWs _ _ hc2 with rfl | hc3
  · exact absurd hns (by decide)
  · obtain ⟨y, hy, rfl⟩ := List.mem_map.mp hc3
    have hy2 := mem_pyStrip hy
    obtain ⟨x, _, rfl⟩ := List.mem_map.mp hy2
    exact goodChar_of_subst_lower x hns

theorem normalizeCodes_expand (cs : List Nat) (h0 : ¬ cs = []) :
    normalizeCodes cs =
      joinSep
        (sortTokens
          (List.filter (fun t => !decide (t ∈ LOCATION_WORDS))
            (List.filter (fun t => !decide (t ∈ STOP_WORDS))
              (pySplitWs (pyStrip (collapseWs
                (List.map substPunct (pyStrip (List.map pyLower cs)))))))) ++
         sortTokens
          (List.filter (fun t => decide (t ∈ LOCATION_WORDS))
            (List.filter (fun t => !decide (t ∈ STOP_WORDS))
              (pySplitWs (pyStrip (collapseWs
                (List.map substPunct (pyStrip (List.map pyLower cs))))))))) := by
  unfold normalizeCodes splitServiceLocation
  rw [if_neg h0]

theorem normalizeCodes_shape (cs : List Nat) :
    ∃ S L : List (List Nat),
      normalizeCodes cs = joinSep (S ++ L) ∧
      (∀ t ∈ S ++ L, t ≠ [] ∧ (∀ c ∈ t, GoodChar c) ∧ ¬ t ∈ STOP_WORDS) ∧
      (∀ t ∈ S, ¬ t ∈ LOCATION_WORDS) ∧
      (∀ t ∈ L, t ∈ LOCATION_WORDS) ∧
      sortTokens S = S ∧ sortTokens L = L := by
  by_cases h0 : cs = []
  · refine ⟨[], [], ?_, ?_, ?_, ?_, rfl, rfl⟩
    · subst h0; rfl
    · intro t ht; simp at ht
    · intro t ht; simp at ht
    · intro t ht; simp at ht
  · refine ⟨sortTokens
        (List.filter (fun t => !decide (t ∈ LOCATION_WORDS))
          (List.filter (fun t => !decide (t ∈ STOP_WORDS))
            (pySplitWs (pyStrip (collapseWs
              (List.map substPunct (pyStrip (List.map pyLower cs)))))))),
      sortTokens
        (List.filter (fun t => decide (t ∈ LOCATION_WORDS))
          (List.filter (fun t => !decide (t ∈ STOP_WORDS))
            (pySplitWs (pyStrip (collapseWs
              (List.map substPunct (pyStrip (List.map pyLower cs)))))))),
      normalizeCodes_expand cs h0, ?_, ?_, ?_, sortTokens_idem _, sortTokens_idem _⟩
    · intro t ht
      have hmem : t ∈ List.filter (fun u => !decide (u ∈ STOP_WORDS))
          (pySplitWs (pyStrip (collapseWs
            (List.map substPunct (pyStrip (List.map pyLower cs)))))) := by
        rcases List.mem_append.mp ht with h | h
        · exact (List.mem_filter.mp (sortTokens_mem.mp h)).1
        · exact (List.mem_filter.mp (sortTokens_mem.mp h)).1
      have hsplit := List.mem_filter.mp hmem
      have hws := splitAux_wf GoodChar _ [] (q3good cs) (by simp) t hsplit.1
      refine ⟨hws.1, hws.2, ?_⟩
      have := hsplit.2
      simpa using this
    · intro t ht
      have := (List.mem_filter.mp (sortTokens_mem.mp ht)).2
      simpa using this
    · intro t ht
      have := (List.mem_filter.mp (sortTokens_mem.mp ht)).2
      simpa using this

theorem renormalize_joinSep (S L : List (List Nat))
    (hgood : ∀ t ∈ S ++ L, t ≠ [] ∧ (∀ c ∈ t, GoodChar c) ∧ ¬ t ∈ STOP_WORDS)
    (hSloc : ∀ t ∈ S, ¬ t ∈ LOCATION_WORDS)
    (hLloc : ∀ t ∈ L, t ∈ LOCATION_WORDS)
    (hSsort : sortTokens S = S) (hLsort : sortTokens L = L) :
    normalizeCodes (joinSep (S ++ L)) = joinSep (S ++ L) := by
  by_cases hnil : joinSep (S ++ L) = []
  · rw [hnil]; rfl
  · have houtChars : ∀ c ∈ joinSep (S ++ L), c = 32 ∨ GoodChar c := by
      intro c hc
      rcases mem_joinSep _ _ hc with h32 | ⟨t, ht, hct⟩
      · exact Or.inl h32
      · exact Or.inr ((hgood t ht).2.1 c hct)
    have hlowerFix : (joinSep (S ++ L)).map pyLower = joinSep (S ++ L) :=
      mapFix _ (fun c hc => by
        rcases houtChars c hc with rfl | hg
        · decide
        · exact hg.2.2)
    have hsubstFix : (pyStrip (joinSep (S ++ L))).map substPunct
        = pyStrip (joinSep (S ++ L)) :=
      mapFix _ (fun c hc => by
        rcases houtChars c (mem_pyStrip hc) with rfl | hg
        · decide
        · exact goodChar_subst_fix hg)
    have hWF : ∀ t ∈ S ++ L, t ≠ [] ∧ ∀ c ∈ t, isSpaceB c = false :=
      fun t ht => ⟨(hgood t ht).1, fun c hc => ((hgood t ht).2.1 c hc).2.1⟩
    have hsplitOut : pySplitWs (joinSep (S ++ L)) = S ++ L := pySplit_joinSep _ hWF
    have htokens : pySplitWs (pyStrip (collapseWs ((pyStrip ((joinSep (S ++ L)).map
        pyLower)).map substPunct))) = S ++ L := by
      rw [hlowerFix, hsubstFix, pySplitWs_pyStrip, pySplitWs_collapse,
        pySplitWs_pyStrip, hsplitOut]
    have hfilterStop : (S ++ L).filter (fun t => !decide (t ∈ STOP_WORDS)) = S ++ L :=
      List.filter_eq_self.mpr (fun t ht => by simp [(hgood t ht).2.2])
    have hfilterS : (S ++ L).filter (fun t => !decide (t ∈ LOCATION_WORDS)) = S := by
      rw [List.filter_append,
        List.filter_eq_self.mpr (fun t ht => by simp [hSloc t ht]),
        List.filter_eq_nil_iff.mpr (fun t ht => by simp [hLloc t ht]), List.append_nil]
    have hfilterL : (S ++ L).filter (fun t => decide (t ∈ LOCATION_WORDS)) = L := by
      rw [List.filter_append,
        List.filter_eq_nil_iff.mpr (fun t ht => by simp [hSloc t ht]),
        List.filter_eq_self.mpr (fun t ht => by simp [hLloc t ht]), List.nil_append]
    rw [normalizeCodes_expand _ hnil, htokens, hfilterStop, hfilterS, hfilterL,
      hSsort, hLsort]

theorem normalizeCodes_idem (cs : List Nat) :
    normalizeCodes (normalizeCodes cs) = normalizeCodes cs := by
  obtain ⟨S, L, hout, hgood, hSloc, hLloc, hSsort, hLsort⟩ := normalizeCodes_shape cs
  rw [hout]
  exact renormalize_joinSep S L hgood hSloc hLloc hSsort hLsort

theorem normalizeCodes_chars (cs : List Nat) :
    ∀ c ∈ normalizeCodes cs, c = 32 ∨ GoodChar c := by
  obtain ⟨S, L, hout, hgood, -, -, -, -⟩ := normalizeCodes_shape cs
  rw [hout]
  intro c hc
  rcases mem_joinSep _ _ hc with h32 | ⟨t, ht, hct⟩
  · exact Or.inl h32
  · exact Or.inr ((hgood t ht).2.1 c hct)

theorem normalizeCodes_split_nostop (cs : List Nat) :
    ∀ t ∈ pySplitWs (normalizeCodes cs), ¬ t ∈ STOP_WORDS := by
  obtain ⟨S, L, hout, hgood, -, -, -, -⟩ := normalizeCodes_shape cs
  rw [hout, pySplit_joinSep _
    (fun t ht => ⟨(hgood t ht).1, fun c hc => ((hgood t ht).2.1 c hc).2.1⟩)]
  intro t ht
  exact (hgood t ht).2.2

theorem normalizeCodes_join_split (cs : List Nat) :
    joinSep (pySplitWs (normalizeCodes cs)) = normalizeCodes cs := by
  obtain ⟨S, L, hout, hgood, -, -, -, -⟩ := normalizeCodes_shape cs
  rw [hout, pySplit_joinSep _
    (fun t ht => ⟨(hgood t ht).1, fun c hc => ((hgood t ht).2.1 c hc).2.1⟩)]

end QueryNormalizer

/-! ## Claim theorems -/

/-- Claim C1: the route's background task passes the keyword argument
`cursor` to `GoogleMapsScraper.scrape`, but `scrape`'s parameter list has
no such parameter, so for every cursor payload the invocation raises
`TypeError` instead of scrolling from `last_scroll_position`; the outer
handler then marks the scrape failed.  This theorem evaluates the embedded
code at such a failing input. -/
theorem C1_scrape_rejects_cursor_keyword :
    ("cursor" ∉ scrape_params) ∧
    (∀ pipelineResult, Orchestrator.scrape_invocation pipelineResult =
      Except.error "TypeError: scrape() got an unexpected keyword argument cursor") ∧
    (Tracker.statusOf
      (Orchestrator.run_scrape_with_progress
        (Tracker.create_scrape [] "s1" 50 50 0) "s1"
        (Orchestrator.scrape_invocation [⟨some "Dentist A"⟩])
        (fun d : Nat => Except.ok d) 0 1).1 "s1" = some "failed") := by
  refine ⟨by decide, fun pr => ?_, by decide⟩
  show (if callBinds scrape_params 0 scrape_call_kwargs then _ else _) = _
  simp only [show callBinds scrape_params 0 scrape_call_kwargs = false from by decide,
    Bool.false_eq_true, if_false]

/-- Claim C2: `scrape_query_async` calls
`get_user_seen_places(str(user.id), query=...)`, but the service method
only has the parameter `user_id`, so the keyword does not bind, the
`TypeError` is swallowed, and the seen set is always empty - neither the
per-query set the claim describes (third conjunct exhibits a store where
that set is `["0xabc"]`) nor the user's global history. -/
theorem C2_seen_places_query_keyword_fails :
    (callBinds get_user_seen_places_params 1 seen_places_call_kwargs = false) ∧
    (∀ db u q, History.orchestrator_seen_places db u q = []) ∧
    (History.spec_seen_places_for_query
      [{ user_id := "u1", place_id := "0xabc", query_hash := some "h1" }] "u1" "h1"
      = ["0xabc"]) := by
  refine ⟨by decide, fun db u q => ?_, by decide⟩
  show (if callBinds get_user_seen_places_params 1 seen_places_call_kwargs then _ else _) = _
  simp only [show callBinds get_user_seen_places_params 1 seen_places_call_kwargs = false
    from by decide, Bool.false_eq_true, if_false]

/-- Claim C3, counterexample: the spec's two example outputs are not what
the code computes.  The standalone hyphen of `"Dentist - in Amritsar"`
survives tokenization (the kept class contains `-`) and sorts before the
letters, and the service tokens of the second example are sorted
alphabetically, so neither stated equality holds. -/
theorem C3_normalize_examples_counterexample :
    ¬ (QueryNormalizer.normalize "Dentist - in Amritsar" = "amritsar dentist in" ∧
       QueryNormalizer.normalize "  the best dentist near amritsar  "
         = "best dentist amritsar near") := by
  decide

/-- Claim C3, amended: the code's actual outputs on the two spec examples:
the hyphen token is kept and sorted first, and service tokens are joined
in alphabetical order. -/
theorem C3_normalize_examples_amended :
    QueryNormalizer.normalize "Dentist - in Amritsar" = "- amritsar dentist in" ∧
    QueryNormalizer.normalize "  the best dentist near amritsar  "
      = "amritsar best dentist near" := by
  constructor <;> decide

/-- Claim C6, counterexample: for `target_count = 7` with a non-empty seen
set the code computes `int(7 * 1.5) = 10`, while the claimed
`ceil(7 * 1.5) = 11` would require `3 * 7 ≤ 2 * collection_target`. -/
theorem C6_collection_target_not_ceil :
    Scraper.collection_target 7 true = 10 ∧
    ¬ (3 * 7 ≤ 2 * Scraper.collection_target 7 true) := by
  decide

/-- Claim C6, amended: the internal collection target is the floor (not
the ceiling) of `target_count * 1.5` when seen places are supplied and of
`target_count * 1.2` otherwise - characterized here by the floor
inequalities - and the returned record list is trimmed to at most
`target_count` elements. -/
theorem C6_collection_target_floor_and_trim :
    (∀ n : Nat, 2 * Scraper.collection_target n true ≤ 3 * n ∧
      3 * n < 2 * Scraper.collection_target n true + 2) ∧
    (∀ n : Nat, 5 * Scraper.collection_target n false ≤ 6 * n ∧
      6 * n < 5 * Scraper.collection_target n false + 5) ∧
    (∀ (l : List Tracker.ResultEntry) (n : Nat),
      (Scraper.trim_results l n).length ≤ n) := by
  refine ⟨fun n => ?_, fun n => ?_, fun l n => ?_⟩
  · simp only [Scraper.collection_target, if_true]
    omega
  · simp only [Scraper.collection_target, Bool.false_eq_true, if_false]
    omega
  · simp only [Scraper.trim_results, List.length_take]
    exact min_le_left _ _

/-- Claim C7: evaluation of the collection loop at a failing input.  The
seen set holds the single place id `0xab`; the page script re-enumerates
the same seen card on both scroll iterations.  A seen place id is never
inserted into `card_links`, so the guard `place_id not in card_links`
(the code comment says "Only count once") is true on every
re-enumeration, and `skipped_duplicates` ends at 2 for one distinct seen
id, where the claim (and the comment) require exactly 1. -/
theorem C7_skipped_duplicates_counted_per_enumeration :
    (Scraper.collect_unique_card_links twoScrollScript 10 2
      [strCodes "0xab"]).skipped_duplicates = 2 ∧
    (Scraper.collect_unique_card_links twoScrollScript 10 2
      [strCodes "0xab"]).card_links.map Prod.fst = [strCodes "0xbeef"] := by
  constructor <;> decide

/-- Claim C4, counterexample: `update` stores `min(requested, 100)` without
comparing to the previous value, so an update requesting 50 followed by one
requesting 10 lowers the stored percent of a scrape that is still in the
non-terminal status `starting`. -/
theorem C4_percent_can_decrease :
    Tracker.percentOf
      (Tracker.update (Tracker.create_scrape [] "s" 50 50 0) "s"
        { progress_percent := some 50 } 1) "s" = 50 ∧
    Tracker.percentOf
      (Tracker.update
        (Tracker.update (Tracker.create_scrape [] "s" 50 50 0) "s"
          { progress_percent := some 50 } 1) "s"
        { progress_percent := some 10 } 2) "s" = 10 ∧
    Tracker.statusOf
      (Tracker.update
        (Tracker.update (Tracker.create_scrape [] "s" 50 50 0) "s"
          { progress_percent := some 50 } 1) "s"
        { progress_percent := some 10 } 2) "s" = some "starting" := by
  refine ⟨by decide, by decide, by decide⟩

/-- Claim C4, amended: `update` writes `min(requested, 100)` and leaves the
percent unchanged when no percent is passed; the tracker itself does not
enforce monotonicity.  Consequently the stored `progress_percent` is
non-decreasing along exactly those update sequences whose provided percent
values are non-decreasing and start at or above the current stored value
(which is at most 100 for tracker-produced states); a later update
requesting a smaller value does lower it. -/
theorem C4_percent_monotone_iff_requests_monotone
    (m : Tracker.TrackerMap) (sid : String) (calls : List (Tracker.UpdateCall × Nat))
    (h100 : Tracker.percentOf m sid ≤ 100)
    (hreq : List.Chain' (· ≤ ·) (Tracker.percentOf m sid :: Tracker.requestedPercents calls)) :
    List.Chain' (· ≤ ·)
      ((Tracker.updateStates m sid calls).map (fun mm => Tracker.percentOf mm sid)) :=
  Tracker.percent_monotone_of_requested_monotone calls m sid h100 hreq

/-- Witness for the amended C4 theorem at a concrete map and call
sequence. -/
theorem C4_percent_monotone_witness :
    List.Chain' (· ≤ ·)
      ((Tracker.updateStates (Tracker.create_scrape [] "s" 50 50 0) "s"
        [({ progress_percent := some 20 }, 1), ({ progress_percent := some 30 }, 2)]).map
        (fun mm => Tracker.percentOf mm "s")) :=
  C4_percent_monotone_iff_requests_monotone
    (Tracker.create_scrape [] "s" 50 50 0) "s"
    [({ progress_percent := some 20 }, 1), ({ progress_percent := some 30 }, 2)]
    (by decide)
    (by
      rw [show Tracker.percentOf (Tracker.create_scrape [] "s" 50 50 0) "s" = 0
          from by decide,
        show Tracker.requestedPercents
            [({ progress_percent := some 20 }, 1), ({ progress_percent := some 30 }, 2)]
          = [20, 30] from by decide]
      exact List.chain'_cons.mpr ⟨by omega,
        List.chain'_cons.mpr ⟨by omega, List.chain'_singleton 30⟩⟩)

/-- Claim C5: after any sequence of acquire, release, sweep and shutdown
operations starting from a fresh pool, the number of active sessions never
exceeds `max_sessions`; an acquire that finds the pool at the cap for a
new user, when cleanup reclaims nothing, raises the resource-exhausted
`RuntimeError` and leaves the state unchanged (no session created); and a
sequence ending in `shutdown` leaves zero active sessions. -/
theorem C5_pool_invariants :
    (∀ (mx it ma : Nat) (ops : List Pool.PoolOp),
      Pool.activeCount (Pool.runOps (Pool.initPool mx it ma) ops) ≤ mx) ∧
    (∀ (st : Pool.PoolState) (uid : String) (now : Nat),
      st.browserStarted = true →
      List.lookup uid st.sessions = none →
      st.sessions.length ≥ st.max_sessions →
      (Pool.cleanup_idle_sessions st now).1 = st →
      Pool.get_session st uid now =
        (Pool.GetResult.failed
          "Maximum concurrent sessions reached. Please try again in a few minutes.",
         st)) ∧
    (∀ (st : Pool.PoolState) (ops : List Pool.PoolOp),
      Pool.activeCount (Pool.runOps st (ops ++ [Pool.PoolOp.shutdownOp])) = 0) := by
  refine ⟨?_, ?_, ?_⟩
  · intro mx it ma ops
    have h := Pool.runOps_inv ops (Pool.initPool mx it ma) (Nat.zero_le _)
    show (Pool.runOps (Pool.initPool mx it ma) ops).sessions.length ≤ mx
    have h2 := h.1
    rw [h.2] at h2
    exact h2
  · intro st uid now hbs hlk hfull hcl
    have hens : Pool.ensureBrowser st = st := by
      unfold Pool.ensureBrowser
      rw [hbs]
      simp
    unfold Pool.get_session
    rw [hens]
    unfold Pool.get_session_body
    rw [hlk]
    dsimp only
    rw [hcl, if_pos hfull, if_pos hfull]
  · intro st ops
    show (Pool.runOps st (ops ++ [Pool.PoolOp.shutdownOp])).sessions.length = 0
    unfold Pool.runOps
    rw [List.foldl_append]
    rfl

/-- Witness for the C5 theorem: three users hitting a two-slot pool stay
within the cap, and a second user's acquire against a full one-slot pool
with a non-reclaimable fresh session fails and leaves the pool unchanged. -/
theorem C5_pool_invariants_witness :
    Pool.activeCount (Pool.runOps (Pool.initPool 2 30 120)
      [Pool.PoolOp.get "u1" 0, Pool.PoolOp.get "u2" 0, Pool.PoolOp.get "u3" 0]) ≤ 2 ∧
    Pool.get_session onePool "u2" 0 =
      (Pool.GetResult.failed
        "Maximum concurrent sessions reached. Please try again in a few minutes.",
       onePool) :=
  ⟨C5_pool_invariants.1 2 30 120
      [Pool.PoolOp.get "u1" 0, Pool.PoolOp.get "u2" 0, Pool.PoolOp.get "u3" 0],
   C5_pool_invariants.2.1 onePool "u2" 0 (by decide) (by decide) (by decide) (by decide)⟩

/-- Claim C8: when the scrape call succeeds, the post-scrape persistence
block runs inside `try/except Exception` whose handler only logs, so for
every behaviour of the persistence steps - including one that raises - the
background task completes the progress entry with the extracted results:
status `completed`, the results stashed, percent 100, never `failed`. -/
theorem C8_persistence_failure_never_fails_progress {δ : Type}
    (m : Tracker.TrackerMap) (sid : String) (results : List Tracker.ResultEntry)
    (persist : δ → Except String δ) (db : δ) (now : Nat)
    (h : (List.lookup sid m).isSome = true) :
    Tracker.statusOf
      (Orchestrator.run_scrape_with_progress m sid (Except.ok results) persist db now).1 sid
      = some "completed" ∧
    (List.lookup sid
      (Orchestrator.run_scrape_with_progress m sid (Except.ok results) persist db now).1).map
      (fun p => p.final_results) = some (some results) ∧
    Tracker.percentOf
      (Orchestrator.run_scrape_with_progress m sid (Except.ok results) persist db now).1 sid
      = 100 := by
  obtain ⟨p, hp⟩ := Option.isSome_iff_exists.mp h
  unfold Orchestrator.run_scrape_with_progress
  dsimp only
  unfold Tracker.complete_scrape
  rw [hp]
  dsimp only
  refine ⟨?_, ?_, ?_⟩
  · unfold Tracker.statusOf
    rw [Tracker.lookup_setEntry]
    rfl
  · rw [Tracker.lookup_setEntry]
    rfl
  · rw [Tracker.percentOf_of_lookup (Tracker.lookup_setEntry m sid _)]
    rfl

/-- Witness for the C8 theorem: a persistence step that raises (`persist`
always returns an error) still leaves the concrete scrape completed with
its results. -/
theorem C8_persistence_failure_witness :
    Tracker.statusOf
      (Orchestrator.run_scrape_with_progress (Tracker.create_scrape [] "s1" 40 50 0) "s1"
        (Except.ok [{ name := some "Biz" }]) (fun _ : Nat => Except.error "db down") 7 1).1 "s1"
      = some "completed" ∧
    (List.lookup "s1"
      (Orchestrator.run_scrape_with_progress (Tracker.create_scrape [] "s1" 40 50 0) "s1"
        (Except.ok [{ name := some "Biz" }]) (fun _ : Nat => Except.error "db down") 7 1).1).map
      (fun p => p.final_results) = some (some [{ name := some "Biz" }]) ∧
    Tracker.percentOf
      (Orchestrator.run_scrape_with_progress (Tracker.create_scrape [] "s1" 40 50 0) "s1"
        (Except.ok [{ name := some "Biz" }]) (fun _ : Nat => Except.error "db down") 7 1).1 "s1"
      = 100 :=
  C8_persistence_failure_never_fails_progress (Tracker.create_scrape [] "s1" 40 50 0) "s1"
    [{ name := some "Biz" }] (fun _ : Nat => Except.error "db down") 7 1 (by decide)

/-- Claim C9: for every feature ID of the form `0x<hex1>:0x<hex2>` (each
hex part non-empty), `extract_cid_from_feature_id` returns the base-10
rendering of the value of `hex2`: the feature pattern captures `0x<hex2>`
as its second group and `str(int(group, 16))` renders it in decimal. -/
theorem C9_extract_cid_decimal_of_second_hex (r1 r2 : List Nat)
    (h1 : r1 ≠ []) (h2 : r2 ≠ [])
    (ha : ∀ c ∈ r1, Dedup.isHexDigitB c = true)
    (hb : ∀ c ∈ r2, Dedup.isHexDigitB c = true) :
    Dedup.extract_cid_from_feature_id (48 :: 120 :: (r1 ++ 58 :: 48 :: 120 :: r2)) =
      some (Dedup.decStr (Dedup.hexVal r2)) := by
  have hfeat := Dedup.matchFeatureAt_exact h1 h2 ha hb
  have hsearch : Dedup.searchFeature (48 :: 120 :: (r1 ++ 58 :: 48 :: 120 :: r2)) =
      some (48 :: 120 :: r1, 48 :: 120 :: r2) := by
    unfold Dedup.searchFeature
    rw [hfeat]
  unfold Dedup.extract_cid_from_feature_id
  rw [if_neg (by simp), hsearch]
  have hint : Dedup.pyIntBase16 (48 :: 120 :: r2) = some (Dedup.hexVal r2) := by
    show (if r2 ≠ [] ∧ r2.all Dedup.isHexDigitB = true
      then some (Dedup.hexVal r2) else none) = some (Dedup.hexVal r2)
    rw [if_pos ⟨h2, List.all_eq_true.mpr hb⟩]
  show (match Dedup.pyIntBase16 (48 :: 120 :: r2) with
    | some v => some (Dedup.decStr v)
    | none => none) = some (Dedup.decStr (Dedup.hexVal r2))
  rw [hint]

/-- Witness for the C9 theorem at the spec's example: the feature ID
`0x89c3afa1b597fe49:0xfff` yields the CID string `4095`. -/
theorem C9_extract_cid_witness :
    Dedup.extract_cid_from_feature_id (strCodes "0x89c3afa1b597fe49:0xfff") =
      some (strCodes "4095") := by
  have h := C9_extract_cid_decimal_of_second_hex
    (strCodes "89c3afa1b597fe49") (strCodes "fff")
    (by decide) (by decide) (by decide) (by decide)
  rw [show strCodes "0x89c3afa1b597fe49:0xfff" =
      48 :: 120 :: (strCodes "89c3afa1b597fe49" ++ 58 :: 48 :: 120 :: strCodes "fff")
    from by decide]
  rw [h]
  decide

/-- Claim C10: query normalization is idempotent - on strings and on raw
code-point sequences - and in particular a normalized form contains no stop
words, only characters of the kept class `[\w\-&]` plus single separating
spaces (re-splitting on whitespace and re-joining with single spaces
reproduces it exactly, so there is no repeated whitespace), and
re-partitioning and re-sorting its tokens leaves it unchanged (that is the
content of the code-point idempotence). -/
theorem C10_normalize_idempotent :
    (∀ q : String,
      QueryNormalizer.normalize (QueryNormalizer.normalize q) =
        QueryNormalizer.normalize q) ∧
    (∀ cs : List Nat,
      QueryNormalizer.normalizeCodes (QueryNormalizer.normalizeCodes cs) =
        QueryNormalizer.normalizeCodes cs) ∧
    (∀ cs : List Nat, ∀ t ∈ pySplitWs (QueryNormalizer.normalizeCodes cs),
      ¬ t ∈ QueryNormalizer.STOP_WORDS) ∧
    (∀ cs : List Nat, ∀ c ∈ QueryNormalizer.normalizeCodes cs, isKeepB c = true) ∧
    (∀ cs : List Nat,
      joinSep (pySplitWs (QueryNormalizer.normalizeCodes cs)) =
        QueryNormalizer.normalizeCodes cs) := by
  refine ⟨?_, QueryNormalizer.normalizeCodes_idem,
    QueryNormalizer.normalizeCodes_split_nostop, ?_,
    QueryNormalizer.normalizeCodes_join_split⟩
  · intro q
    unfold QueryNormalizer.normalize
    have hrt : strCodes (codesStr (QueryNormalizer.normalizeCodes (strCodes q))) =
        QueryNormalizer.normalizeCodes (strCodes q) := by
      unfold strCodes codesStr
      show List.map Char.toNat (List.map Char.ofNat
          (QueryNormalizer.normalizeCodes (List.map Char.toNat q.data))) =
        QueryNormalizer.normalizeCodes (List.map Char.toNat q.data)
      rw [List.map_map]
      apply mapFix
      intro c hc
      show (Char.ofNat c).toNat = c
      rcases QueryNormalizer.normalizeCodes_chars (strCodes q) c hc with rfl | hg
      · rfl
      · exact toNat_ofNat_valid c (goodChar_lt hg)
    rw [hrt, QueryNormalizer.normalizeCodes_idem]
  · intro cs c hc
    rcases QueryNormalizer.normalizeCodes_chars cs c hc with rfl | hg
    · decide
    · exact hg.1

end Scrappy
